import Mathlib

/-
Verification of the IQL query runner (redash/query_runner/iql.py).

This file gives a shallow embedding of the module's core logic:
  - the Python-string comment scanner `parse_and_remove_comments` (modelled
    over `List Char`, with Python's `str.find`, `strip`, `lstrip`, `rstrip`
    and `split` reproduced as explicit list functions),
  - the `Field` class (construction with the display-name collision check,
    `retrieve`, `type`),
  - the recursive schema flattener `_flatten_schema` / `flatten_schema`,
  - `execute_iql_query`, `run_query` and `get_schema` (the HTTP transport is
    a parameter: an `HttpResp` value stands for the remote server's answer).

Python exceptions are modelled with `Except PyErr`; JSON values with the
inductive type `Value` (Python floats carry a `Rat` payload: the code never
computes with the float, it only tests `isinstance(curr, float)`).
-/

set_option autoImplicit false

namespace Iql

/-- PyErr models the Python exceptions the module can raise: `TypeError`
(e.g. subscripting a tuple with a string, or calling a `str` object),
`KeyError` (subscripting a dict with an absent key), and the generic
`Exception` raised for an unknown field type. -/
inductive PyErr where
  | typeError (msg : String)
  | keyError (key : String)
  | exception (msg : String)
  deriving Repr, DecidableEq

deriving instance DecidableEq for Except

/-- Value models a decoded JSON value (the payloads the remote service
returns). Python `None` and JSON `null` are both `vnull`; a Python float is
`vfloat` with a rational payload (the code only ever tests the runtime type
of the number, never computes with it). -/
inductive Value where
  | vnull
  | vbool (b : Bool)
  | vint (n : Int)
  | vfloat (q : Rat)
  | vstr (s : String)
  | vdict (entries : List (String × Value))
  deriving Repr

/-- dlookup is Python dict subscript/`in` support for `vdict` entries:
first binding of the key wins (a Python dict has unique keys, so an
association list with at most one binding per key is the faithful model). -/
def dlookup (k : String) : List (String × Value) → Option Value
  | [] => none
  | (k', v) :: rest => if k' = k then some v else dlookup k rest

/-- isFloatVal models Python `isinstance(v, float)` (bools and ints are not
floats in Python). -/
def isFloatVal : Value → Bool
  | .vfloat _ => true
  | _ => false

mutual
/-- jsonDumps models `json_dumps` on decoded JSON values: a canonical
string serialization. The claims never inspect the produced text, only
that serialization happens; the exact spacing is irrelevant. -/
def jsonDumps : Value → String
  | .vnull => "null"
  | .vbool true => "true"
  | .vbool false => "false"
  | .vint n => toString n
  | .vfloat q => toString q
  | .vstr s => "\"" ++ s ++ "\""
  | .vdict l => "\x7b" ++ jsonDumpsEntries l ++ "\x7d"

/-- jsonDumpsEntries serializes the entries of a JSON object, separated by
commas. -/
def jsonDumpsEntries : List (String × Value) → String
  | [] => ""
  | [(k, v)] => "\"" ++ k ++ "\": " ++ jsonDumps v
  | (k, v) :: rest => "\"" ++ k ++ "\": " ++ jsonDumps v ++ ", " ++ jsonDumpsEntries rest
end

/-- pyStripLeft models Python `str.lstrip(chars)`: drop leading characters
belonging to the given set (represented by a Boolean predicate). -/
def pyStripLeft (p : Char → Bool) (s : List Char) : List Char :=
  s.dropWhile p

/-- pyStripRight models Python `str.rstrip(chars)`: drop trailing characters
belonging to the given set. -/
def pyStripRight (p : Char → Bool) (s : List Char) : List Char :=
  (s.reverse.dropWhile p).reverse

/-- pyStrip models Python `str.strip()`: trim whitespace from both ends. -/
def pyStrip (s : List Char) : List Char :=
  pyStripRight Char.isWhitespace (pyStripLeft Char.isWhitespace s)

/-- findStarSlash models Python `query.find('*/')`: the index of the first
occurrence of the two-character token, `none` when absent (Python's `-1`). -/
def findStarSlash : List Char → Option Nat
  | [] => none
  | c :: rest =>
    if c = '*' ∧ rest.head? = some '/' then some 0
    else (findStarSlash rest).map (· + 1)

/-- splitComma models Python `str.split(',')`: split into the (possibly
empty) pieces between commas. -/
def splitComma : List Char → List (List Char)
  | [] => [[]]
  | c :: rest =>
    if c = ',' then [] :: splitComma rest
    else
      match splitComma rest with
      | [] => [[c]]
      | p :: ps => (c :: p) :: ps

/-- splitFirstColon models `item.split(':', 1)` guarded by `':' in item`:
`some (before, after)` at the first colon, `none` when the item has no
colon. -/
def splitFirstColon : List Char → Option (List Char × List Char)
  | [] => none
  | c :: rest =>
    if c = ':' then some ([], rest)
    else (splitFirstColon rest).map (fun kv => (c :: kv.1, kv.2))

/-- parse_comment models the module-level `parse_comment`: strip the
comment text, strip leading `/` and `*` characters, strip trailing `*` and
`/` characters, split on commas and strip each item. -/
def parse_comment (comment_string : List Char) : List (List Char) :=
  (splitComma (pyStripRight (fun c => c = '*' ∨ c = '/')
    (pyStripLeft (fun c => c = '/' ∨ c = '*') (pyStrip comment_string)))).map pyStrip

/-- Metadata models the Python `metadata` dict built by
`parse_and_remove_comments`: keys and values are strings (kept as character
lists). -/
abbrev Metadata := List (List Char × List Char)

/-- msetKey models Python dict assignment `metadata[key] = value`: replace
the binding when the key is present, append it otherwise. -/
def msetKey (md : Metadata) (k v : List Char) : Metadata :=
  if (md.lookup k).isSome then
    md.map (fun kv => if kv.1 = k then (k, v) else kv)
  else md ++ [(k, v)]

/-- insertComment models one iteration's metadata harvesting: for each
comma-separated item of the comment, when the item contains a colon, split
at the first colon and store the stripped key/value pair. -/
def insertComment (md : Metadata) (comment : List Char) : Metadata :=
  (parse_comment comment).foldl
    (fun m item =>
      match splitFirstColon item with
      | none => m
      | some kv => msetKey m (pyStrip kv.1) (pyStrip kv.2))
    md

/-- findStarSlash_le: a found occurrence leaves room for the two-character
token, i.e. `i + 2 ≤ length`. Needed for the scanner loop's termination. -/
theorem findStarSlash_le {s : List Char} {i : Nat} (h : findStarSlash s = some i) :
    i + 2 ≤ s.length := by
  induction s generalizing i with
  | nil => simp [findStarSlash] at h
  | cons c rest ih =>
    simp only [findStarSlash] at h
    split at h
    · rename_i hc
      cases h
      cases rest with
      | nil => simp at hc
      | cons d r => simp only [List.length_cons]; omega
    · cases hfind : findStarSlash rest with
      | none => rw [hfind] at h; simp at h
      | some j =>
        rw [hfind] at h
        simp at h
        have := ih hfind
        simp only [List.length_cons]
        omega

/-- pyRemoveLoop models the `while True` loop of
`parse_and_remove_comments` together with the final
`query.strip().rstrip(';')`: repeatedly find the next `*/`, consume the
prefix through it as a comment (harvesting metadata), and when no token
remains return the metadata with the trimmed residue stripped of all
trailing semicolons. -/
def pyRemoveLoop (q : List Char) (md : Metadata) : Metadata × List Char :=
  match h : findStarSlash q with
  | none => (md, pyStripRight (fun c => c = ';') (pyStrip q))
  | some i =>
    pyRemoveLoop (q.drop (i + 2)) (insertComment md (q.take (i + 2)))
termination_by q.length
decreasing_by
  have := findStarSlash_le h
  simp [List.length_drop]
  omega

/-- parse_and_remove_comments models `IQL.parse_and_remove_comments`:
returns the harvested metadata and the cleaned query text. -/
def parse_and_remove_comments (s : List Char) : Metadata × List Char :=
  pyRemoveLoop s []

/-- ColType enumerates the host's abstract column types, the values of the
`TYPE_*` constants imported from `redash.query_runner`. -/
inductive ColType where
  | TYPE_BOOLEAN
  | TYPE_INTEGER
  | TYPE_FLOAT
  | TYPE_STRING
  | TYPE_DATETIME
  deriving Repr, DecidableEq

/-- TYPES_MAP models the module's `TYPES_MAP` dict (keys are raw IQL type
tags, one of them the Python `None`): `some` for a present key, `none` for
an absent key, so `(TYPES_MAP t).isSome` is Python's `t in TYPES_MAP`. -/
def TYPES_MAP : Option String → Option ColType
  | some "BOOL" => some .TYPE_BOOLEAN
  | some "NUMBER" => some .TYPE_INTEGER
  | some "STRING" => some .TYPE_STRING
  | some "TIMESTAMP" => some .TYPE_DATETIME
  | some "INFERRED_FLOAT" => some .TYPE_FLOAT
  | some "INFERRED_STRING" => some .TYPE_STRING
  | some "FT_DNE" => some .TYPE_STRING
  | none => some .TYPE_STRING
  | _ => none

/-- Field models the `Field` class: the extraction path, the (mutable in
Python, threaded explicitly here) raw IQL type tag, and the computed
display name. -/
structure Field where
  path : List String
  iql_type : Option String
  name : String
  deriving Repr, DecidableEq

/-- hasSpaceChar models Python `' ' in x` (substring containment of the
one-character string, i.e. membership of the space character). -/
def hasSpaceChar (x : String) : Bool :=
  x.data.any (fun c => c = ' ')

/-- joinName is the display-name computation of `Field.__init__`:
`'.'.join(['`' + x + '`' if ' ' in x else x for x in path])`. -/
def joinName (path : List String) : String :=
  String.intercalate "." (path.map (fun x => if hasSpaceChar x then "`" ++ x ++ "`" else x))

/-- Names models the `all_names` defaultdict threaded through one
flattening pass (key: display name, value: collision count). -/
abbrev Names := List (String × Nat)

/-- mkField models `Field.__init__(path, iql_type, all_names)`. The
collision branch executes `'%s (%d)' (self.name, all_names[self.name])`,
which calls a `str` object and therefore raises a `TypeError`; note that no
branch ever records `self.name` in `all_names`, so the dict threads through
unchanged. -/
def mkField (path : List String) (iqlType : Option String) (ns : Names) :
    Except PyErr (Field × Names) :=
  let name := joinName path
  if (ns.lookup name).isSome then
    .error (.typeError "not callable")
  else
    .ok ({ path := path, iql_type := iqlType, name := name }, ns)

/-- Field.type models `Field.type()`: `TYPES_MAP[self.iql_type]`. Every
field the module constructs carries a tag present in `TYPES_MAP`
(flattening only assigns mapped tags or INFERRED_STRING, and `retrieve`
only refines to INFERRED_FLOAT), so the `getD` default is dead code. -/
def Field.type (f : Field) : ColType :=
  (TYPES_MAP f.iql_type).getD .TYPE_STRING

/-- SchemaNode models one node of the response's schema tree as the code
accesses it: `field['name']`, `field.get('fieldType', None)`,
`field['multiplicity']` (an optional tag: `none` makes the subscript raise
`KeyError`), and `field.get('children', [])` (an absent list is `[]`). -/
inductive SchemaNode where
  | mk (name : String) (fieldType : Option String) (multiplicity : Option String)
      (children : List SchemaNode)

/-- SchemaNode.name projects the node's `name` entry. -/
def SchemaNode.name : SchemaNode → String
  | .mk nm _ _ _ => nm

/-- SchemaNode.fieldType projects the node's optional `fieldType` entry. -/
def SchemaNode.fieldType : SchemaNode → Option String
  | .mk _ ft _ _ => ft

/-- SchemaNode.multiplicity projects the node's optional `multiplicity`
entry. -/
def SchemaNode.multiplicity : SchemaNode → Option String
  | .mk _ _ m _ => m

/-- SchemaNode.children projects the node's children list (`[]` when the
entry is absent, matching `field.get('children', [])`). -/
def SchemaNode.children : SchemaNode → List SchemaNode
  | .mk _ _ _ cs => cs

/-- flattenMulti models the subscript `field['multiplicity']` inside the
`elif` condition: a node without the tag raises `KeyError`. -/
def flattenMulti : Option String → Except PyErr String
  | some m => .ok m
  | none => .error (.keyError "multiplicity")

/-- flattenS models `IQL._flatten_schema(schema, path, all_names)`: the for
loop over the sibling list, with the three branches of the original
(mappable tag, ENTITY + ONE_TO_MANY, other ENTITY) and the final `raise`
for an unknown tag. The accumulating `fields` list becomes the returned
list; the shared `all_names` dict is threaded as state. -/
def flattenS : List SchemaNode → List String → Names → Except PyErr (List Field × Names)
  | [], _, ns => .ok ([], ns)
  | .mk nm ft mult children :: rest, path, ns =>
    let fullPath := path ++ [nm]
    if (TYPES_MAP ft).isSome then do
      let (f, ns1) ← mkField fullPath ft ns
      let (fs, ns2) ← flattenS rest path ns1
      .ok (f :: fs, ns2)
    else if ft = some "ENTITY" then do
      let m ← flattenMulti mult
      if m = "ONE_TO_MANY" then do
        let (f, ns1) ← mkField fullPath (some "INFERRED_STRING") ns
        let (fs, ns2) ← flattenS rest path ns1
        .ok (f :: fs, ns2)
      else do
        let (fs1, ns1) ← flattenS children fullPath ns
        let (fs2, ns2) ← flattenS rest path ns1
        .ok (fs1 ++ fs2, ns2)
    else .error (.exception ("Unknown field type"))

/-- IqlSchema models the value of the response's `schema` entry: a dict
whose `children` entry (defaulted to `[]` by `schema.get('children', [])`)
is the list of root field nodes. -/
structure IqlSchema where
  children : List SchemaNode

/-- flatten_schema models `IQL.flatten_schema(schema)`: start a fresh
`all_names` dict and flatten the root's children with the empty path. -/
def flatten_schema (schema : IqlSchema) : Except PyErr (List Field × Names) :=
  flattenS schema.children [] []

/-- walkPath models the for loop of `Field.retrieve`: follow the path
segment by segment; `none` when at some step the current value is not a
dict or the key is absent (the code's early `return None`). -/
def walkPath : List String → Value → Option Value
  | [], v => some v
  | p :: rest, v =>
    match v with
    | .vdict m =>
      match dlookup p m with
      | some v' => walkPath rest v'
      | none => none
    | _ => none

/-- Field.retrieve models `Field.retrieve(data)`. The Python method
mutates `self.iql_type` (NUMBER refined to INFERRED_FLOAT on a float
value); the embedding returns the value together with the updated field.
Nothing in the body can raise (every subscript is guarded), so the
function is total: the `try/except ... raise` wrapper never fires. -/
def Field.retrieve (f : Field) (data : Value) : Value × Field :=
  match walkPath f.path data with
  | none => (.vnull, f)
  | some curr =>
    let f' := if f.iql_type = some "NUMBER" ∧ isFloatVal curr then
        { f with iql_type := some "INFERRED_FLOAT" } else f
    if f'.iql_type = some "INFERRED_STRING" then (.vstr (jsonDumps curr), f')
    else (curr, f')

/-- Row models the `flattened` dict `run_query` builds per source record:
display name to extracted value, with Python dict-assignment semantics. -/
abbrev Row := List (String × Value)

/-- rowSet models `flattened[field.name] = ...`: replace the binding when
present, append otherwise. -/
def rowSet (r : Row) (k : String) (v : Value) : Row :=
  if (r.lookup k).isSome then
    r.map (fun kv => if kv.1 = k then (k, v) else kv)
  else r ++ [(k, v)]

/-- resolveRow models the inner loop of `run_query`: for each field in
order, retrieve the value from the row (updating the field's type state in
place) and store it under the field's display name. -/
def resolveRow : List Field → Value → Row → Row × List Field
  | [], _, acc => (acc, [])
  | f :: rest, row, acc =>
    let (v, f') := f.retrieve row
    let (r, rest') := resolveRow rest row (rowSet acc f.name v)
    (r, f' :: rest')

/-- processRows models the outer loop of `run_query` over `data['data']`:
each row is resolved with the field state left by the previous rows, and
the final field state (with any type refinements) is what the column list
is built from. -/
def processRows : List Field → List Value → List Row × List Field
  | fields, [] => ([], fields)
  | fields, row :: rest =>
    let (r, fields') := resolveRow fields row []
    let (rs, fields'') := processRows fields' rest
    (r :: rs, fields'')

/-- Column models one entry of the `columns` list `run_query` returns:
`{'name': field.name, 'friendly_name': field.name, 'type': field.type()}`. -/
structure Column where
  name : String
  friendly_name : String
  type : ColType
  deriving Repr, DecidableEq

/-- mkColumns models the column-building loop of `run_query`, applied to
the fields as they stand after all rows were resolved. -/
def mkColumns (fields : List Field) : List Column :=
  fields.map (fun f => { name := f.name, friendly_name := f.name, type := f.type })

/-- IqlResponse models a decoded success payload from the remote service:
the `schema` entry and the `data` entry (the list of row objects). -/
structure IqlResponse where
  schema : IqlSchema
  data : List Value

/-- HttpResp models the `requests` response object as `execute_iql_query`
consumes it: `resp.ok`, `resp.status_code`, `resp.content`, and the decoded
`resp.json()` payload. -/
structure HttpResp where
  ok : Bool
  status_code : Nat
  content : String
  body : IqlResponse

/-- ExecResult models the (asymmetric) return value of
`execute_iql_query`: on a non-success status the function returns the
2-tuple `(None, "Query failed (%d): %s" % ...)`, on success it returns the
decoded JSON payload — not a tuple. -/
inductive ExecResult where
  | errPair (err : String)
  | json (resp : IqlResponse)

/-- execute_iql_query models the module-level `execute_iql_query` (the
HTTP exchange itself is the `HttpResp` argument): a non-success response
becomes the error 2-tuple carrying the status code and raw body, a success
response is decoded and returned bare. -/
def execute_iql_query (resp : HttpResp) : ExecResult :=
  if !resp.ok then
    .errPair ("Query failed (" ++ toString resp.status_code ++ "): " ++ resp.content)
  else
    .json resp.body

/-- run_query models `IQL.run_query(query, user)` with the transport
response as a parameter: parse comments, execute, subscript the result
with `'schema'` — which raises a `TypeError` when `execute_iql_query`
returned its error 2-tuple, since tuples reject string subscripts — then
flatten, resolve every row, and build the columns from the final field
state. The Python code serializes `columns`/`rows` with `json_dumps` and
returns `(payload, None)`; the embedding returns the structured pair. -/
def run_query (rawQuery : List Char) (resp : HttpResp) :
    Except PyErr (List Column × List Row) :=
  let _parsed := parse_and_remove_comments rawQuery
  match execute_iql_query resp with
  | .errPair _ => .error (.typeError "tuple indices must be integers or slices, not str")
  | .json r => do
    let (fields, _) ← flatten_schema r.schema
    let (rows, finalFields) := processRows fields r.data
    .ok (mkColumns finalFields, rows)

/-- getName models the comprehension `[x['name'] for x in ...['data']]`
followed by the use of the name in `'@`' + ec + '`'`: a non-dict row or an
absent key raises, and a non-string name makes the later concatenation
raise `TypeError`. -/
def getName (x : Value) : Except PyErr String :=
  match x with
  | .vdict m =>
    match dlookup "name" m with
    | some (.vstr s) => .ok s
    | some _ => .error (.typeError "can only concatenate str")
    | none => .error (.keyError "name")
  | _ => .error (.typeError "not subscriptable")

/-- probeResult models what `get_schema`'s loop body does with one
completed probe: `future.result()` hands back `execute_iql_query`'s return
value, `data['schema']` raises `TypeError` when that value is the error
2-tuple, and otherwise the schema is flattened and the field names
collected. -/
def probeResult (ec : String) (resp : HttpResp) : Except PyErr (String × List String) :=
  match execute_iql_query resp with
  | .errPair _ => .error (.typeError "tuple indices must be integers or slices, not str")
  | .json r => do
    let (fields, _) ← flatten_schema r.schema
    .ok (ec, fields.map (·.name))

/-- get_schema models `IQL.get_schema()`: list the datasets via the
`__system::ecs` introspection query, then probe each dataset and flatten
its schema. The real code runs the probes on a thread pool and collects
them in completion order; the embedding folds in submission order — every
probe's `future.result()` is consumed either way, which is what the
error-propagation claims are about (no claim concerns result order). -/
def get_schema (ecsResp : HttpResp) (probe : String → HttpResp) :
    Except PyErr (List (String × List String)) :=
  match execute_iql_query ecsResp with
  | .errPair _ => .error (.typeError "tuple indices must be integers or slices, not str")
  | .json r => do
    let ecs ← r.data.mapM getName
    ecs.mapM (fun ec => probeResult ec (probe ec))

/-- PathBroken says the path is missing or broken at some depth of the
row object, in the claim's sense: at some step the current value is not a
keyed structure, or the segment key is absent. -/
inductive PathBroken : List String → Value → Prop where
  | notDict (p : String) (rest : List String) (v : Value) :
      (∀ m, v ≠ .vdict m) → PathBroken (p :: rest) v
  | keyAbsent (p : String) (rest : List String) (m : List (String × Value)) :
      dlookup p m = none → PathBroken (p :: rest) (.vdict m)
  | deeper (p : String) (rest : List String) (m : List (String × Value)) (v' : Value) :
      dlookup p m = some v' → PathBroken rest v' → PathBroken (p :: rest) (.vdict m)

/-- collisionSchema is a schema tree with two distinct leaf paths that
join-and-quote to the same display name "a.b": a root leaf literally named
"a.b", and a leaf "b" nested inside the ENTITY "a". -/
def collisionSchema : IqlSchema :=
  ⟨[.mk "a.b" (some "STRING") none [],
    .mk "a" (some "ENTITY") (some "ONE_TO_ONE") [.mk "b" (some "STRING") none []]]⟩

/-- noMultSchema is a schema tree whose root child is an ENTITY node with
well-formed children but no multiplicity tag at all. -/
def noMultSchema : IqlSchema :=
  ⟨[.mk "a" (some "ENTITY") none [.mk "b" (some "STRING") none []]]⟩

/-- unknownTypeSchema is a schema tree with a single leaf whose fieldType
is neither a mappable scalar tag nor ENTITY. -/
def unknownTypeSchema : IqlSchema := ⟨[.mk "a" (some "WIDGET") none []]⟩

/-- mkEcsResp builds the `__system::ecs` introspection response listing
the given dataset names, in the shape `get_schema` consumes:
`{"schema": ..., "data": [{"name": n1}, {"name": n2}, ...]}`. -/
def mkEcsResp (names : List String) : HttpResp :=
  ⟨true, 200, "", ⟨⟨[]⟩, names.map (fun s => .vdict [("name", .vstr s)])⟩⟩

/-- okProbeResp is a well-formed empty success response for a probe. -/
def okProbeResp : HttpResp := ⟨true, 200, "", ⟨⟨[]⟩, []⟩⟩

/-- failProbeResp is an HTTP 500 probe response. -/
def failProbeResp : HttpResp := ⟨false, 500, "boom", ⟨⟨[]⟩, []⟩⟩

/-- witnessProbe answers dataset "d2" with the failing response and every
other dataset with the success response. -/
def witnessProbe (ec : String) : HttpResp :=
  if ec = "d2" then failProbeResp else okProbeResp

/-- pyRemoveLoop_done: when no `*/` token remains, the scan stops and the
residue is trimmed and stripped of trailing semicolons. -/
theorem pyRemoveLoop_done (q : List Char) (md : Metadata) (h : findStarSlash q = none) :
    pyRemoveLoop q md = (md, pyStripRight (fun c => c = ';') (pyStrip q)) := by
  rw [pyRemoveLoop.eq_def]
  split
  · rfl
  · rename_i i hi
    rw [h] at hi
    cases hi

/-- pyRemoveLoop_found: when `*/` first occurs at index `i`, the scan
consumes the prefix through it as a comment and continues on the rest. -/
theorem pyRemoveLoop_found (q : List Char) (md : Metadata) (i : Nat)
    (h : findStarSlash q = some i) :
    pyRemoveLoop q md = pyRemoveLoop (q.drop (i + 2)) (insertComment md (q.take (i + 2))) := by
  rw [pyRemoveLoop.eq_def]
  split
  · rename_i hn
    rw [h] at hn
    cases hn
  · rename_i j hj
    rw [h] at hj
    cases hj
    rfl

/-- C1: claims that for a non-success HTTP status `run_query` does not
raise and returns a tuple with a populated error slot. In the code,
`execute_iql_query` does build the `(None, "Query failed (status): body")`
tuple, but `run_query` immediately subscripts that tuple with `'schema'`,
which raises a `TypeError` — so `run_query` raises instead of returning
the error tuple. This theorem evaluates the code at the failing inputs:
for every non-ok response, `execute_iql_query` returns the error pair
carrying status and body, and `run_query` raises. -/
theorem C1_run_query_transport_error_raises (q : List Char) (st : Nat) (ct : String)
    (body : IqlResponse) :
    run_query q ⟨false, st, ct, body⟩ =
      .error (.typeError "tuple indices must be integers or slices, not str") ∧
    execute_iql_query ⟨false, st, ct, body⟩ =
      .errPair ("Query failed (" ++ toString st ++ "): " ++ ct) :=
  ⟨rfl, rfl⟩

/-- C2: claims that display names are unique within one flattening pass,
the second-registered descriptor getting a numeric suffix. The code never
records any name in `all_names` (the only write sits inside the collision
branch, whose guard `self.name in all_names` is therefore always false),
so two colliding paths yield two descriptors with the *same* name and no
suffix — as the first conjunct evaluates on `collisionSchema`. Moreover,
were the collision branch ever reached, line 31 executes
`'%s (%d)' (self.name, ...)`, calling a `str` object: a `TypeError`, as
the second conjunct shows by running `Field.__init__` with a pre-populated
`all_names`. The determinism half of the claim holds trivially (flattening
is a pure function of the tree), but the uniqueness/suffix half is the
intended behavior the code fails to implement. -/
theorem C2_collision_handling_broken :
    flatten_schema collisionSchema =
      .ok ([{ path := ["a.b"], iql_type := some "STRING", name := "a.b" },
            { path := ["a", "b"], iql_type := some "STRING", name := "a.b" }], []) ∧
    mkField ["a.b"] (some "STRING") [("a.b", 1)] = .error (.typeError "not callable") := by
  constructor
  · simp only [flatten_schema, collisionSchema, flattenS]
    decide
  · rfl

/-- walkPath_broken: a broken path makes the traversal loop return `none`
(the code's early `return None`). -/
theorem walkPath_broken {path : List String} {v : Value} (h : PathBroken path v) :
    walkPath path v = none := by
  induction h with
  | notDict p rest v hnot =>
    cases v <;> simp [walkPath]
    exact absurd rfl (hnot _)
  | keyAbsent p rest m hm => simp [walkPath, hm]
  | deeper p rest m v' hm _ ih => simp [walkPath, hm, ih]

/-- C4: for every field descriptor and row object, if the path is missing
or broken at any depth, resolution returns null (and leaves the field's
type state untouched). The embedding of `Field.retrieve` is a total
function — every subscript in the source loop is guarded, so nothing in
this code path can raise, matching the claim's "never raises". -/
theorem C4_broken_path_returns_null (f : Field) (data : Value)
    (h : PathBroken f.path data) :
    f.retrieve data = (Value.vnull, f) := by
  unfold Field.retrieve
  rw [walkPath_broken h]

/-- C4 witness: a concrete field whose two-segment path breaks at depth 1
(the value under "a" is the integer 1, not a dict) resolves to null. -/
theorem C4_witness :
    PathBroken ["a", "b"] (.vdict [("a", .vint 1)]) ∧
    Field.retrieve { path := ["a", "b"], iql_type := some "STRING", name := "a.b" }
        (.vdict [("a", .vint 1)]) =
      (Value.vnull, { path := ["a", "b"], iql_type := some "STRING", name := "a.b" }) := by
  have hb : PathBroken ["a", "b"] (.vdict [("a", .vint 1)]) :=
    .deeper _ _ _ _ rfl (.notDict _ _ _ (fun m hm => Value.noConfusion hm))
  exact ⟨hb, C4_broken_path_returns_null _ _ hb⟩

/-- retrieve_snd_stable: `retrieve` only ever mutates a NUMBER-typed
field, so any other field comes back unchanged. -/
theorem retrieve_snd_stable {f : Field} (r : Value) (h : f.iql_type ≠ some "NUMBER") :
    (f.retrieve r).2 = f := by
  unfold Field.retrieve
  cases walkPath f.path r with
  | none => rfl
  | some curr =>
    have hc : ¬(f.iql_type = some "NUMBER" ∧ isFloatVal curr = true) := by simp [h]
    dsimp only
    rw [if_neg hc]
    split <;> rfl

/-- retrieve_snd_num: a NUMBER-typed field either stays NUMBER or is
refined in place to INFERRED_FLOAT. -/
theorem retrieve_snd_num {f : Field} (r : Value) (h : f.iql_type = some "NUMBER") :
    (f.retrieve r).2 = f ∨
    (f.retrieve r).2 = { f with iql_type := some "INFERRED_FLOAT" } := by
  unfold Field.retrieve
  cases walkPath f.path r with
  | none => exact .inl rfl
  | some curr =>
    by_cases hf : isFloatVal curr = true
    · right
      simp [h, hf]
    · left
      simp [h, hf]

/-- retrieve_snd_num_float: a NUMBER-typed field whose path extracts a
float value from the row is refined in place to INFERRED_FLOAT. -/
theorem retrieve_snd_num_float {f : Field} {r : Value} {qv : Rat}
    (h : f.iql_type = some "NUMBER") (hw : walkPath f.path r = some (.vfloat qv)) :
    (f.retrieve r).2 = { f with iql_type := some "INFERRED_FLOAT" } := by
  unfold Field.retrieve
  rw [hw]
  simp [h, isFloatVal]

/-- resolveRow_snd: the field state a row resolution leaves behind is each
field updated independently by its own `retrieve` (the dict accumulator
plays no role in the field state). -/
theorem resolveRow_snd (fields : List Field) (row : Value) (acc : Row) :
    (resolveRow fields row acc).2 = fields.map (fun f => (f.retrieve row).2) := by
  induction fields generalizing acc with
  | nil => rfl
  | cons f rest ih => simp [resolveRow, ih]

/-- processRows_snd: the field state after all rows is the left fold of
the per-row pointwise update over the row list. -/
theorem processRows_snd (fields : List Field) (rows : List Value) :
    (processRows fields rows).2 =
      rows.foldl (fun fs r => fs.map (fun f => (f.retrieve r).2)) fields := by
  induction rows generalizing fields with
  | nil => rfl
  | cons row rest ih => simp [processRows, resolveRow_snd, ih]

/-- foldl_map_get?: folding a pointwise map over a list acts pointwise, so
the j-th element of the final state is the fold over that element alone. -/
theorem foldl_map_get? (g : Value → Field → Field) (rows : List Value)
    (fields : List Field) (j : Nat) :
    (rows.foldl (fun fs r => fs.map (g r)) fields).get? j =
      (fields.get? j).map (fun f => rows.foldl (fun f r => g r f) f) := by
  induction rows generalizing fields with
  | nil => simp
  | cons row rest ih =>
    simp only [List.foldl_cons, ih, List.get?_map]
    cases fields.get? j <;> simp

/-- foldl_retrieve_stable: a field that is not NUMBER-typed survives any
row sequence unchanged. -/
theorem foldl_retrieve_stable (rows : List Value) (f : Field)
    (h : f.iql_type ≠ some "NUMBER") :
    rows.foldl (fun f r => (f.retrieve r).2) f = f := by
  induction rows with
  | nil => rfl
  | cons row rest ih => simp [retrieve_snd_stable row h, ih]

/-- foldl_retrieve_num: a NUMBER-typed field ends any row sequence either
still NUMBER or refined to INFERRED_FLOAT. -/
theorem foldl_retrieve_num (rows : List Value) (f : Field)
    (h : f.iql_type = some "NUMBER") :
    rows.foldl (fun f r => (f.retrieve r).2) f = f ∨
    rows.foldl (fun f r => (f.retrieve r).2) f = { f with iql_type := some "INFERRED_FLOAT" } := by
  induction rows with
  | nil => exact .inl rfl
  | cons row rest ih =>
    simp only [List.foldl_cons]
    rcases retrieve_snd_num row h with hs | hs
    · rw [hs]
      exact ih
    · rw [hs]
      right
      exact foldl_retrieve_stable rest _ (by simp)

/-- C3: a NUMBER-typed field whose value in some row is a non-integral
numeric (a Python float, e.g. 3.5) has its declared type refined in place
to INFERRED_FLOAT, and the refinement persists through all later rows of
the pass: the column reported for that field at the end of `run_query`'s
row loop is typed float, regardless of integral values in earlier or later
rows. -/
theorem C3_number_refined_to_float_persists
    (fields : List Field) (j : Nat) (f : Field)
    (hget : fields.get? j = some f)
    (hnum : f.iql_type = some "NUMBER")
    (pre post : List Value) (r : Value) (qv : Rat)
    (hwalk : walkPath f.path r = some (.vfloat qv))
    (hnonint : qv.den ≠ 1) :
    (mkColumns (processRows fields (pre ++ r :: post)).2).get? j =
      some { name := f.name, friendly_name := f.name, type := ColType.TYPE_FLOAT } := by
  have hfinal :
      (processRows fields (pre ++ r :: post)).2.get? j =
        some { f with iql_type := some "INFERRED_FLOAT" } := by
    rw [processRows_snd, foldl_map_get? (fun r f => (f.retrieve r).2), hget]
    simp only [Option.map_some', List.foldl_append, List.foldl_cons]
    rcases foldl_retrieve_num pre f hnum with h1 | h1
    · rw [h1, retrieve_snd_num_float hnum hwalk,
        foldl_retrieve_stable post _ (by simp)]
    · rw [h1, retrieve_snd_stable r (by simp),
        foldl_retrieve_stable post _ (by simp)]
  unfold mkColumns
  rw [List.get?_map, hfinal]
  rfl

/-- C3 witness: one NUMBER field "a"; the first row holds the integral 1,
the second the non-integral 7/2, the third the integral 2 — the reported
column is typed float. -/
theorem C3_witness :
    (mkColumns (processRows [{ path := ["a"], iql_type := some "NUMBER", name := "a" }]
        [.vdict [("a", .vint 1)], .vdict [("a", .vfloat (mkRat 7 2))],
         .vdict [("a", .vint 2)]]).2).get? 0 =
      some { name := "a", friendly_name := "a", type := ColType.TYPE_FLOAT } :=
  C3_number_refined_to_float_persists
    [{ path := ["a"], iql_type := some "NUMBER", name := "a" }] 0
    { path := ["a"], iql_type := some "NUMBER", name := "a" }
    rfl rfl [.vdict [("a", .vint 1)]] [.vdict [("a", .vint 2)]]
    (.vdict [("a", .vfloat (mkRat 7 2))]) (mkRat 7 2) rfl (by decide)

/-- TYPES_MAP_ENTITY: the tag ENTITY is not a key of `TYPES_MAP`. -/
theorem TYPES_MAP_ENTITY : TYPES_MAP (some "ENTITY") = none := rfl

/-- exceptBindOk: computation rule for bind on a successful `Except`. -/
@[simp] theorem exceptBindOk {α β : Type} (a : α) (f : α → Except PyErr β) :
    (Except.ok a >>= f : Except PyErr β) = f a := rfl

/-- exceptBindErr: computation rule for bind on a failed `Except`. -/
@[simp] theorem exceptBindErr {α β : Type} (e : PyErr) (f : α → Except PyErr β) :
    ((Except.error e : Except PyErr α) >>= f) = Except.error e := rfl

/-- C5: flattening an ENTITY node with ONE_TO_MANY multiplicity emits
exactly one descriptor, typed INFERRED_STRING, at `path + [node.name]` —
and never recurses into the node's children: the children list is
universally quantified and absent from the result. -/
theorem C5_one_to_many_single_descriptor (nm : String) (children : List SchemaNode)
    (path : List String) (ns : Names)
    (h : ns.lookup (joinName (path ++ [nm])) = none) :
    flattenS [.mk nm (some "ENTITY") (some "ONE_TO_MANY") children] path ns =
      .ok ([{ path := path ++ [nm], iql_type := some "INFERRED_STRING",
              name := joinName (path ++ [nm]) }], ns) := by
  simp [flattenS, TYPES_MAP_ENTITY, flattenMulti, mkField, h]

/-- C5 witness: a concrete ONE_TO_MANY ENTITY node with a scalar child
flattens to the single INFERRED_STRING descriptor "p.x"; the child is
ignored. -/
theorem C5_witness :
    ([] : Names).lookup (joinName (["p"] ++ ["x"])) = none ∧
    flattenS [.mk "x" (some "ENTITY") (some "ONE_TO_MANY")
        [.mk "c" (some "STRING") none []]] ["p"] [] =
      .ok ([{ path := ["p"] ++ ["x"], iql_type := some "INFERRED_STRING",
              name := joinName (["p"] ++ ["x"]) }], []) :=
  ⟨rfl, C5_one_to_many_single_descriptor "x" [.mk "c" (some "STRING") none []] ["p"] [] rfl⟩

/-- C6 counterexample: the claim covers ENTITY nodes "with no multiplicity
tag at all", predicting recursion into the children. The code evaluates
`field['multiplicity']` inside the `elif` condition, so such a node raises
`KeyError` instead (first conjunct), even though its children are
perfectly flattenable (second conjunct shows what the predicted recursion
would have produced). -/
theorem C6_missing_multiplicity_raises :
    flatten_schema noMultSchema = .error (.keyError "multiplicity") ∧
    flattenS [SchemaNode.mk "b" (some "STRING") none []] ["a"] [] =
      .ok ([{ path := ["a", "b"], iql_type := some "STRING", name := "a.b" }], []) := by
  constructor
  · simp only [flatten_schema, noMultSchema, flattenS]
    decide
  · simp only [flattenS]
    decide

/-- C6 (amended): for an ENTITY node whose multiplicity tag is present and
different from ONE_TO_MANY, flattening recurses into the children with
`path + [node.name]` and splices the recursive results in front of the
remaining siblings' results (a node with no multiplicity tag instead
raises KeyError — see the counterexample). -/
theorem C6_entity_other_multiplicity_recurses (nm m : String)
    (children rest : List SchemaNode) (path : List String) (ns : Names)
    (hm : m ≠ "ONE_TO_MANY") (fs1 fs2 : List Field) (ns1 ns2 : Names)
    (h1 : flattenS children (path ++ [nm]) ns = .ok (fs1, ns1))
    (h2 : flattenS rest path ns1 = .ok (fs2, ns2)) :
    flattenS (.mk nm (some "ENTITY") (some m) children :: rest) path ns =
      .ok (fs1 ++ fs2, ns2) := by
  simp [flattenS, TYPES_MAP_ENTITY, flattenMulti, hm, h1, h2]

/-- C6 witness: a ONE_TO_ONE ENTITY "a" with scalar child "b", followed by
a sibling scalar "c": the child's descriptor is spliced before the
sibling's. -/
theorem C6_witness :
    flattenS [SchemaNode.mk "b" (some "STRING") none []] (["a"] : List String) [] =
      .ok ([{ path := ["a", "b"], iql_type := some "STRING", name := "a.b" }], []) ∧
    flattenS [SchemaNode.mk "c" (some "NUMBER") none []] ([] : List String) [] =
      .ok ([{ path := ["c"], iql_type := some "NUMBER", name := "c" }], []) ∧
    flattenS [SchemaNode.mk "a" (some "ENTITY") (some "ONE_TO_ONE")
        [.mk "b" (some "STRING") none []], .mk "c" (some "NUMBER") none []] [] [] =
      .ok ([{ path := ["a", "b"], iql_type := some "STRING", name := "a.b" },
            { path := ["c"], iql_type := some "NUMBER", name := "c" }], []) := by
  refine ⟨?_, ?_, ?_⟩
  · simp only [flattenS]
    decide
  · simp only [flattenS]
    decide
  · exact C6_entity_other_multiplicity_recurses "a" "ONE_TO_ONE"
      [.mk "b" (some "STRING") none []] [.mk "c" (some "NUMBER") none []] [] []
      (by decide)
      [{ path := ["a", "b"], iql_type := some "STRING", name := "a.b" }]
      [{ path := ["c"], iql_type := some "NUMBER", name := "c" }] [] []
      (by simp only [flattenS]; decide) (by simp only [flattenS]; decide)

/-- C7 counterexample: `unknownTypeSchema` contains no ENTITY-typed node
and has exactly one leaf, yet flattening produces no descriptor at all —
it raises the "Unknown field type" exception — refuting the claim as
stated over *every* ENTITY-free schema tree. -/
theorem C7_unknown_scalar_type_raises :
    flatten_schema unknownTypeSchema = .error (.exception "Unknown field type") ∧
    unknownTypeSchema.children.length = 1 := by
  constructor
  · simp only [flatten_schema, unknownTypeSchema, flattenS]
    decide
  · rfl

/-- flattenS_scalar: over a sibling list of mappable-scalar nodes, the
flattener emits one descriptor per node, in document order, with the
node's declared type, and the name counter passes through empty. A
mappable node's children are never visited. -/
theorem flattenS_scalar (nodes : List SchemaNode) (path : List String)
    (h : ∀ n ∈ nodes, (TYPES_MAP n.fieldType).isSome = true) :
    flattenS nodes path [] =
      .ok (nodes.map (fun n => { path := path ++ [n.name], iql_type := n.fieldType,
                                 name := joinName (path ++ [n.name]) }), []) := by
  induction nodes with
  | nil => simp [flattenS]
  | cons n rest ih =>
    obtain ⟨nm, ft, mult, cs⟩ := n
    have hn := h _ (List.mem_cons_self _ _)
    simp only [SchemaNode.fieldType] at hn
    simp [flattenS, hn, mkField, ih (fun x hx => h x (List.mem_cons_of_mem _ hx)),
      SchemaNode.name, SchemaNode.fieldType]

/-- C7 (amended): for every schema tree in which every node carries a
mappable scalar fieldType (none is ENTITY or unknown) and no node has
children — so every node is a leaf — flattening yields exactly one
descriptor per leaf, in document order, each carrying the leaf's declared
type. -/
theorem C7_scalar_leaves_in_document_order (nodes : List SchemaNode)
    (h : ∀ n ∈ nodes, (TYPES_MAP n.fieldType).isSome = true ∧ n.children = []) :
    flatten_schema ⟨nodes⟩ =
      .ok (nodes.map (fun n => { path := [n.name], iql_type := n.fieldType,
                                 name := joinName [n.name] }), []) :=
  flattenS_scalar nodes [] (fun n hn => (h n hn).1)

/-- C7 witness: three childless scalar leaves (one with a `null`
fieldType) flatten to three descriptors in document order with their
declared types. -/
theorem C7_witness :
    (∀ n ∈ [SchemaNode.mk "a" (some "NUMBER") none [],
            SchemaNode.mk "b c" (some "STRING") none [],
            SchemaNode.mk "d" none none []],
      (TYPES_MAP n.fieldType).isSome = true ∧ n.children = []) ∧
    flatten_schema ⟨[SchemaNode.mk "a" (some "NUMBER") none [],
                     SchemaNode.mk "b c" (some "STRING") none [],
                     SchemaNode.mk "d" none none []]⟩ =
      .ok ([{ path := ["a"], iql_type := some "NUMBER", name := joinName ["a"] },
            { path := ["b c"], iql_type := some "STRING", name := joinName ["b c"] },
            { path := ["d"], iql_type := none, name := joinName ["d"] }], []) := by
  refine ⟨?_, ?_⟩
  · intro n hn
    simp only [List.mem_cons, List.not_mem_nil, or_false] at hn
    rcases hn with rfl | rfl | rfl <;> exact ⟨rfl, rfl⟩
  · exact C7_scalar_leaves_in_document_order _ (by
      intro n hn
      simp only [List.mem_cons, List.not_mem_nil, or_false] at hn
      rcases hn with rfl | rfl | rfl <;> exact ⟨rfl, rfl⟩)

/-- mapM_ok_mem: a successful `mapM` over `Except` means every element
succeeded — contrapositively, one failing element forces the whole
traversal to fail. -/
theorem mapM_ok_mem {α β : Type} (f : α → Except PyErr β) :
    ∀ (l : List α) (out : List β), l.mapM f = .ok out → ∀ x ∈ l, ∃ y, f x = .ok y := by
  intro l
  induction l with
  | nil =>
    intro out h x hx
    cases hx
  | cons a l ih =>
    intro out h x hx
    rw [List.mapM_cons] at h
    cases hfa : f a with
    | error e =>
      rw [hfa] at h
      simp at h
    | ok y =>
      rw [hfa] at h
      simp only [exceptBindOk] at h
      cases hfl : l.mapM f with
      | error e =>
        rw [hfl] at h
        simp at h
      | ok ys =>
        rcases List.mem_cons.mp hx with rfl | hx
        · exact ⟨y, hfa⟩
        · exact ih ys hfl x hx

/-- mapM_getName_names: extracting the `name` entry from each introspection
row recovers exactly the dataset-name list. -/
theorem mapM_getName_names (names : List String) :
    (names.map (fun s => Value.vdict [("name", Value.vstr s)])).mapM getName =
      .ok names := by
  rw [← List.mapM'_eq_mapM]
  induction names with
  | nil => rfl
  | cons s rest ih =>
    rw [List.map_cons, List.mapM']
    simp [getName, dlookup, ih]

/-- C8: with the dataset catalog listing `names`, if any dataset's probe
comes back with a non-success HTTP status, `get_schema` does not return a
catalog (partial or otherwise): the loop's `data['schema']` subscript on
the probe's error 2-tuple raises, so the whole call fails with an error
rather than silently omitting the dataset. -/
theorem C8_probe_failure_propagates (names : List String) (probe : String → HttpResp)
    (ec : String) (hmem : ec ∈ names) (hfail : (probe ec).ok = false) :
    ∃ e, get_schema (mkEcsResp names) probe = .error e := by
  have hprobe : probeResult ec (probe ec) =
      .error (.typeError "tuple indices must be integers or slices, not str") := by
    unfold probeResult execute_iql_query
    rw [hfail]
    rfl
  unfold get_schema
  rw [show execute_iql_query (mkEcsResp names) =
      ExecResult.json ⟨⟨[]⟩, names.map (fun s => Value.vdict [("name", Value.vstr s)])⟩
    from rfl]
  dsimp only
  rw [mapM_getName_names]
  simp only [exceptBindOk]
  cases hres : names.mapM (fun ec => probeResult ec (probe ec)) with
  | error e => exact ⟨e, rfl⟩
  | ok out =>
    obtain ⟨y, hy⟩ := mapM_ok_mem _ names out hres ec hmem
    rw [hprobe] at hy
    cases hy

/-- C8 witness: three datasets, the middle one's probe failing — discovery
returns an error instead of a 2-dataset catalog. -/
theorem C8_witness :
    "d2" ∈ ["d1", "d2", "d3"] ∧ (witnessProbe "d2").ok = false ∧
    ∃ e, get_schema (mkEcsResp ["d1", "d2", "d3"]) witnessProbe = .error e :=
  ⟨by simp, rfl,
    C8_probe_failure_propagates ["d1", "d2", "d3"] witnessProbe "d2" (by simp) rfl⟩

/-- head_dropWhile_not: the first element surviving a `dropWhile` fails
the predicate. -/
theorem head_dropWhile_not (p : Char → Bool) (l : List Char) (c : Char)
    (h : (l.dropWhile p).head? = some c) : p c = false := by
  induction l with
  | nil => simp [List.dropWhile] at h
  | cons a l ih =>
    rw [List.dropWhile] at h
    split at h
    · exact ih h
    · rename_i hpa
      cases h
      exact Bool.not_eq_true _ ▸ (by simpa using hpa)

/-- getLast?_reverse': the last element of a reversed list is the head of
the original. -/
theorem getLast?_reverse' (l : List Char) : l.reverse.getLast? = l.head? := by
  cases l with
  | nil => rfl
  | cons a l => simp [List.reverse_cons, List.getLast?_concat]

/-- stripRight_decomp: a right-strip removes a (possibly empty) maximal
run of the stripped character: the original is the stripped result plus a
replicated tail. -/
theorem stripRight_decomp (p : Char → Bool) (c : Char) (hc : ∀ x, p x = true → x = c)
    (l : List Char) : ∃ k, l = pyStripRight p l ++ List.replicate k c := by
  refine ⟨(l.reverse.takeWhile p).length, ?_⟩
  have h1 : l.reverse.takeWhile p = List.replicate (l.reverse.takeWhile p).length c :=
    List.eq_replicate_length.mpr (fun b hb => hc b (List.mem_takeWhile_imp hb))
  calc l = l.reverse.reverse := (List.reverse_reverse l).symm
    _ = (l.reverse.takeWhile p ++ l.reverse.dropWhile p).reverse := by
        rw [List.takeWhile_append_dropWhile]
    _ = (l.reverse.dropWhile p).reverse ++ (l.reverse.takeWhile p).reverse := by
        rw [List.reverse_append]
    _ = pyStripRight p l ++ List.replicate (l.reverse.takeWhile p).length c := by
        conv_lhs => rw [h1]
        rw [List.reverse_replicate]
        rfl

/-- stripRight_getLast: the stripped result never ends in a character the
predicate accepts. -/
theorem stripRight_getLast (p : Char → Bool) (l : List Char) (c : Char)
    (h : (pyStripRight p l).getLast? = some c) : p c = false := by
  unfold pyStripRight at h
  rw [getLast?_reverse'] at h
  exact head_dropWhile_not p l.reverse c h

/-- pyRemoveLoop_done_shape: when the scan stops, the clean query is the
trimmed residue minus a maximal run of trailing semicolons, and it never
ends in a semicolon. -/
theorem pyRemoveLoop_done_shape (s : List Char) (md : Metadata)
    (h : findStarSlash s = none) :
    ∃ k, pyStrip s = (pyRemoveLoop s md).2 ++ List.replicate k ';' ∧
      ∀ c, (pyRemoveLoop s md).2.getLast? = some c → c ≠ ';' := by
  rw [pyRemoveLoop_done _ _ h]
  obtain ⟨k, hk⟩ :=
    stripRight_decomp (fun c => c = ';') ';' (fun x hx => by simpa using hx) (pyStrip s)
  refine ⟨k, hk, fun c hc => ?_⟩
  have := stripRight_getLast (fun c => c = ';') (pyStrip s) c hc
  simpa using this

/-- c9_shape_aux: fuel-indexed induction over the comment-scanning loop —
the clean query component is obtained from some comment-free suffix of the
input by trimming whitespace and removing every trailing semicolon. -/
theorem c9_shape_aux : ∀ (n : Nat) (s : List Char), s.length ≤ n → ∀ md : Metadata,
    ∃ r t k, s = t ++ r ∧ findStarSlash r = none ∧
      pyStrip r = (pyRemoveLoop s md).2 ++ List.replicate k ';' ∧
      ∀ c, (pyRemoveLoop s md).2.getLast? = some c → c ≠ ';' := by
  intro n
  induction n with
  | zero =>
    intro s hs md
    have hnil : s = [] := List.eq_nil_of_length_eq_zero (Nat.le_zero.mp hs)
    subst hnil
    obtain ⟨k, h1, h2⟩ := pyRemoveLoop_done_shape [] md rfl
    exact ⟨[], [], k, rfl, rfl, h1, h2⟩
  | succ n ih =>
    intro s hs md
    cases hfind : findStarSlash s with
    | none =>
      obtain ⟨k, h1, h2⟩ := pyRemoveLoop_done_shape s md hfind
      exact ⟨s, [], k, rfl, hfind, h1, h2⟩
    | some i =>
      have hlen : i + 2 ≤ s.length := findStarSlash_le hfind
      have hdrop : (s.drop (i + 2)).length ≤ n := by
        simp only [List.length_drop]
        omega
      obtain ⟨r, t, k, h1, h2, h3, h4⟩ :=
        ih (s.drop (i + 2)) hdrop (insertComment md (s.take (i + 2)))
      rw [pyRemoveLoop_found _ _ i hfind]
      refine ⟨r, s.take (i + 2) ++ t, k, ?_, h2, h3, h4⟩
      rw [List.append_assoc, ← h1, List.take_append_drop]

/-- C9 (amended): the clean query returned by `parse_and_remove_comments`
is a comment-free suffix of the input trimmed of surrounding whitespace
and stripped of *all* trailing statement terminators: the residue equals
the clean query plus a run of `k` semicolons, and the clean query never
ends in one (the original claim's "keeps all but one of them" is refuted
by the counterexample — `str.rstrip(';')` removes the whole run). -/
theorem C9_all_trailing_semicolons_stripped (s : List Char) :
    ∃ r t k, s = t ++ r ∧ findStarSlash r = none ∧
      pyStrip r = (parse_and_remove_comments s).2 ++ List.replicate k ';' ∧
      ∀ c, (parse_and_remove_comments s).2.getLast? = some c → c ≠ ';' :=
  c9_shape_aux s.length s le_rfl []

/-- C9 counterexample: the input "@x;;" ends in two statement terminators;
the claim says all but one is kept (clean query "@x;"), but the code's
`rstrip(';')` removes both, returning "@x". -/
theorem C9_keeps_no_trailing_semicolon :
    (parse_and_remove_comments "@x;;".data).2 = "@x".data ∧
    "@x".data ≠ "@x;".data := by
  constructor
  · rw [parse_and_remove_comments, pyRemoveLoop_done _ _ (by decide)]
    decide
  · decide

/-- findStarSlash_none_cons: unpacking a failed search one character in. -/
theorem findStarSlash_none_cons {c : Char} {l : List Char}
    (h : findStarSlash (c :: l) = none) :
    findStarSlash l = none ∧ ¬(c = '*' ∧ l.head? = some '/') := by
  rw [findStarSlash] at h
  split at h
  · cases h
  · rename_i hcond
    exact ⟨Option.map_eq_none'.mp h, hcond⟩

/-- findStarSlash_append: a string with no `*/` followed by the literal
token has its first occurrence exactly at the junction. -/
theorem findStarSlash_append (a b : List Char) (ha : findStarSlash a = none) :
    findStarSlash (a ++ '*' :: '/' :: b) = some a.length := by
  induction a with
  | nil => simp [findStarSlash]
  | cons c a ih =>
    obtain ⟨ha', hcond⟩ := findStarSlash_none_cons ha
    rw [List.cons_append, findStarSlash]
    have hng : ¬(c = '*' ∧ (a ++ '*' :: '/' :: b).head? = some '/') := by
      cases a with
      | nil => simp
      | cons d a' => simpa using hcond
    rw [if_neg hng, ih ha']
    rfl

/-- C10: any occurrence of the comment-closing token `*/` — even with no
opening `/*` before it — makes the scanner consume the entire prefix
through the token as a comment: the prefix is removed from the query body
and its comma-separated, colon-bearing fragments are harvested into the
metadata, while the clean query is built from the text after the token
alone. -/
theorem C10_close_token_without_open_consumed (a b : List Char) (md : Metadata)
    (ha : findStarSlash a = none) (hb : findStarSlash b = none) :
    pyRemoveLoop (a ++ '*' :: '/' :: b) md =
      (insertComment md (a ++ ['*', '/']),
       pyStripRight (fun c => c = ';') (pyStrip b)) := by
  have hfind := findStarSlash_append a b ha
  have hsplit : a ++ '*' :: '/' :: b = (a ++ ['*', '/']) ++ b := by simp
  have hlen2 : (a ++ ['*', '/']).length = a.length + 2 := by simp
  have htake : (a ++ '*' :: '/' :: b).take (a.length + 2) = a ++ ['*', '/'] := by
    rw [hsplit, ← hlen2, List.take_left]
  have hdrop : (a ++ '*' :: '/' :: b).drop (a.length + 2) = b := by
    rw [hsplit, ← hlen2, List.drop_left]
  rw [pyRemoveLoop_found _ _ a.length hfind, htake, hdrop, pyRemoveLoop_done _ _ hb]

/-- C10 witness: the query text "x: 1, y*/ @q;" contains `*/` but no
`/*`; everything before the token is consumed, "x: 1" is harvested into
the metadata, and the clean query is "@q". -/
theorem C10_witness :
    findStarSlash "x: 1, y".data = none ∧ findStarSlash " @q;".data = none ∧
    pyRemoveLoop ("x: 1, y".data ++ '*' :: '/' :: " @q;".data) [] =
      ([("x".data, "1".data)], "@q".data) := by
  refine ⟨by decide, by decide, ?_⟩
  rw [C10_close_token_without_open_consumed _ _ _ (by decide) (by decide)]
  decide

end Iql
